import Mathlib

/-!
Shallow embedding of the database diff/sync core of syncforge-tui.

The Rust sources embedded here are `src/db/connection.rs` (dialect catalog),
`src/db/diff.rs` (schema diff engine) and `src/db/sync.rs` (data diff
engine).  Pure functions are translated directly; the data-fetch
orchestration of `compare_table_data` is embedded as a pure function whose
row-set inputs stand for the results of the (I/O) fetches.

Modelling notes, shared by all definitions below:
* Rust `String` is Lean `String`; operations that Lean's built-in `String`
  API leaves opaque to kernel reduction (uppercasing, prefix/suffix tests,
  ordering, `replace`) are implemented on the underlying character list,
  matching the Rust semantics character by character.  Rust compares
  strings byte-wise over UTF-8, which coincides with lexicographic order
  on code points, i.e. on Lean's `Char`.
* Rust `HashMap` built by inserting a keyed sequence is modelled by the
  association list of surviving (that is, last-inserted) entries:
  `dedupKeepLast`.  A `HashMap`'s iteration order is arbitrary in Rust, so
  iterating the surviving entries in list order is one admissible order;
  none of the properties proved below depends on the iteration order.
* `usize` is `Nat`; Rust's `saturating_sub` is `Nat` subtraction, which is
  saturating by definition.
-/

namespace SyncForge

/-! ### Character-list string primitives -/

/-- Rust `str::to_uppercase`, restricted to the per-character (ASCII) case
mapping, which is all the call sites below compare against. -/
def toUpperStr (s : String) : String :=
  ⟨s.data.map Char.toUpper⟩

/-- Rust `str::starts_with`. -/
def strStartsWith (s p : String) : Bool :=
  p.data.isPrefixOf s.data

/-- Rust `str::ends_with`. -/
def strEndsWith (s p : String) : Bool :=
  p.data.isSuffixOf s.data

/-- Rust byte-wise string comparison (`Ord` on `String`), as a boolean
less-or-equal on the character lists. -/
def charListLe : List Char → List Char → Bool
  | [], _ => true
  | _ :: _, [] => false
  | a :: as, b :: bs =>
    if a < b then true
    else if b < a then false
    else charListLe as bs

/-- Nonstrict order on strings used by the result sort, modelling Rust's
`String::cmp` being `Less` or `Equal`. -/
def strLe (a b : String) : Bool :=
  charListLe a.data b.data

/-- Rust `val.replace('\x27', "''")`: every single-quote character is
doubled, all other characters are kept. -/
def doubleQuotes : List Char → List Char
  | [] => []
  | c :: cs =>
    if c == '\'' then '\'' :: '\'' :: doubleQuotes cs
    else c :: doubleQuotes cs

/-! ### The HashMap model -/

/-- The entries of a Rust `HashMap` built by inserting a keyed sequence in
order: for each key only the last entry survives.  The surviving entries
are kept in list order as one admissible iteration order. -/
def dedupKeepLast {α : Type} (key : α → String) : List α → List α
  | [] => []
  | x :: xs =>
    if xs.any (fun y => key y == key x) then dedupKeepLast key xs
    else x :: dedupKeepLast key xs

theorem mem_of_mem_dedupKeepLast {α : Type} (key : α → String) :
    ∀ {l : List α} {x : α}, x ∈ dedupKeepLast key l → x ∈ l := by
  intro l
  induction l with
  | nil => intro x hx; simp [dedupKeepLast] at hx
  | cons a as ih =>
    intro x hx
    by_cases h : as.any (fun y => key y == key a)
    · simp only [dedupKeepLast, if_pos h] at hx
      exact List.mem_cons_of_mem a (ih hx)
    · simp only [dedupKeepLast, if_neg h] at hx
      rcases List.mem_cons.mp hx with rfl | hx'
      · exact List.mem_cons_self x as
      · exact List.mem_cons_of_mem a (ih hx')

theorem dedupKeepLast_pairwise {α : Type} (key : α → String) :
    ∀ l : List α, (dedupKeepLast key l).Pairwise (fun a b => key a ≠ key b) := by
  intro l
  induction l with
  | nil => exact List.Pairwise.nil
  | cons a as ih =>
    by_cases h : as.any (fun y => key y == key a)
    · simpa only [dedupKeepLast, if_pos h] using ih
    · simp only [dedupKeepLast, if_neg h]
      refine List.pairwise_cons.mpr ⟨?_, ih⟩
      intro y hy hcontra
      apply h
      refine List.any_eq_true.mpr ⟨y, mem_of_mem_dedupKeepLast key hy, ?_⟩
      simp [hcontra]

theorem find?_key_self {α : Type} (key : α → String) :
    ∀ {m : List α}, m.Pairwise (fun a b => key a ≠ key b) →
      ∀ {x : α}, x ∈ m → m.find? (fun y => key y == key x) = some x := by
  intro m
  induction m with
  | nil => intro _ x hx; simp at hx
  | cons a as ih =>
    intro hp x hx
    rcases List.mem_cons.mp hx with rfl | hxt
    · exact List.find?_cons_of_pos _ (by simp)
    · have hne : key a ≠ key x := (List.pairwise_cons.mp hp).1 x hxt
      rw [List.find?_cons_of_neg _ (by simp [hne])]
      exact ih (List.pairwise_cons.mp hp).2 hxt

/-! ### Dialect catalog (`src/db/connection.rs`) -/

/-- The four backend kinds (`DbType` in `connection.rs`). -/
inductive DbType : Type
  | MySQL
  | PostgreSQL
  | SQLite
  | SQLServer
deriving DecidableEq

/-- `DbType::quote_char`: the identifier quote pair per dialect. -/
def DbType.quote_char : DbType → String × String
  | DbType.MySQL => ("`", "`")
  | DbType.PostgreSQL => ("\"", "\"")
  | DbType.SQLite => ("\"", "\"")
  | DbType.SQLServer => ("[", "]")

/-- `DbType::quote_identifier`: wrap a name in the dialect's quote pair. -/
def DbType.quote_identifier (db : DbType) (name : String) : String :=
  (db.quote_char).1 ++ name ++ (db.quote_char).2

/-- `ConnectionConfig::default_port`. -/
def default_port : DbType → Nat
  | DbType.MySQL => 3306
  | DbType.PostgreSQL => 5432
  | DbType.SQLite => 0
  | DbType.SQLServer => 1433

/-! ### Schema model (`src/db/schema.rs`) -/

/-- `ColumnInfo` of `schema.rs`. -/
structure ColumnInfo : Type where
  name : String
  data_type : String
  nullable : Bool
  default : Option String
  is_primary_key : Bool
  extra : String
  position : Nat
deriving DecidableEq

/-- `IndexInfo` of `schema.rs`. -/
structure IndexInfo : Type where
  name : String
  columns : List String
  is_unique : Bool
deriving DecidableEq

/-- `TableInfo` of `schema.rs`. -/
structure TableInfo : Type where
  name : String
  columns : List ColumnInfo
  indexes : List IndexInfo
  create_sql : String
deriving DecidableEq

/-- `SchemaInfo` of `schema.rs`. -/
structure SchemaInfo : Type where
  database : String
  tables : List TableInfo
deriving DecidableEq

/-! ### Schema diff engine (`src/db/diff.rs`) -/

/-- `DiffType` of `diff.rs`. -/
inductive DiffType : Type
  | Added
  | Removed
  | Modified
deriving DecidableEq

/-- `DiffResult` of `diff.rs`. -/
structure DiffResult : Type where
  diff_type : DiffType
  table_name : String
  detail : String
  sql : String
deriving DecidableEq

/-- `is_numeric_or_special` of `diff.rs`: whether a default value is
emitted without quotes. -/
def is_numeric_or_special (val : String) : Bool :=
  let upper := toUpperStr val
  let specials := ["NULL", "CURRENT_TIMESTAMP", "CURRENT_DATE", "CURRENT_TIME",
    "NOW()", "TRUE", "FALSE"]
  if specials.contains upper then true
  else if strEndsWith upper "()" || strStartsWith upper "(" then true
  else val.data.all (fun c => c.isDigit || c == '.' || c == '-')

/-- `build_column_def` of `diff.rs`. -/
def build_column_def (col : ColumnInfo) : String :=
  let def1 := col.data_type
  let def2 := if col.nullable then def1 else def1 ++ " NOT NULL"
  let def3 :=
    match col.default with
    | some d =>
      if is_numeric_or_special d then def2 ++ " DEFAULT " ++ d
      else def2 ++ " DEFAULT '" ++ d ++ "'"
    | none => def2
  if col.extra == "" then def3 else def3 ++ " " ++ col.extra

/-- `columns_equal` of `diff.rs`. -/
def columns_equal (a b : ColumnInfo) : Bool :=
  a.data_type == b.data_type && a.nullable == b.nullable &&
    a.default == b.default && a.extra == b.extra

/-- The rank the result sort of `compare_schemas` gives each diff kind. -/
def type_order : DiffType → Nat
  | DiffType.Added => 0
  | DiffType.Modified => 1
  | DiffType.Removed => 2

/-- The comparator of the final `sort_by` in `compare_schemas`, as a
nonstrict relation: rank first, then table name byte-wise. -/
def diffLE (a b : DiffResult) : Prop :=
  type_order a.diff_type < type_order b.diff_type ∨
    (type_order a.diff_type = type_order b.diff_type ∧
      strLe a.table_name b.table_name = true)

instance : DecidableRel diffLE := fun a b => by
  unfold diffLE; infer_instance

/-- Added-column results of `compare_tables` (its first loop). -/
def table_added_cols (table_name : String) (source_cols target_cols : List ColumnInfo)
    (db_type : DbType) : List DiffResult :=
  source_cols.filterMap fun col =>
    if target_cols.any (fun u => u.name == col.name) then none
    else some {
      diff_type := DiffType.Modified,
      table_name := table_name,
      detail := "Add column: " ++ col.name,
      sql := "ALTER TABLE " ++ db_type.quote_identifier table_name ++
        " ADD COLUMN " ++ db_type.quote_identifier col.name ++ " " ++
        build_column_def col ++ ";" }

/-- Removed-column results of `compare_tables` (its second loop). -/
def table_removed_cols (table_name : String) (source_cols target_cols : List ColumnInfo)
    (db_type : DbType) : List DiffResult :=
  target_cols.filterMap fun col =>
    if source_cols.any (fun u => u.name == col.name) then none
    else some {
      diff_type := DiffType.Modified,
      table_name := table_name,
      detail := "Drop column: " ++ col.name,
      sql := "ALTER TABLE " ++ db_type.quote_identifier table_name ++
        " DROP COLUMN " ++ db_type.quote_identifier col.name ++ ";" }

/-- Modified-column results of `compare_tables` (its third loop). -/
def table_modified_cols (table_name : String) (source_cols target_cols : List ColumnInfo)
    (db_type : DbType) : List DiffResult :=
  source_cols.filterMap fun col =>
    match target_cols.find? (fun u => u.name == col.name) with
    | some target_col =>
      if columns_equal col target_col then none
      else some {
        diff_type := DiffType.Modified,
        table_name := table_name,
        detail := "Modify column: " ++ col.name ++ " (" ++
          target_col.data_type ++ " -> " ++ col.data_type ++ ")",
        sql := "ALTER TABLE " ++ db_type.quote_identifier table_name ++
          " MODIFY COLUMN " ++ db_type.quote_identifier col.name ++ " " ++
          build_column_def col ++ ";" }
    | none => none

/-- `compare_tables` of `diff.rs`: the three column loops over the two
name-keyed column maps, results in push order. -/
def compare_tables (table_name : String) (source target : TableInfo)
    (db_type : DbType) : List DiffResult :=
  let source_cols := dedupKeepLast (fun c : ColumnInfo => c.name) source.columns
  let target_cols := dedupKeepLast (fun c : ColumnInfo => c.name) target.columns
  table_added_cols table_name source_cols target_cols db_type ++
    table_removed_cols table_name source_cols target_cols db_type ++
    table_modified_cols table_name source_cols target_cols db_type

/-- Added-table results of `compare_schemas` (its first loop). -/
def schema_added (source_tables target_tables : List TableInfo) : List DiffResult :=
  source_tables.filterMap fun t =>
    if target_tables.any (fun u => u.name == t.name) then none
    else some {
      diff_type := DiffType.Added,
      table_name := t.name,
      detail := "Table exists in source but not in target",
      sql := t.create_sql ++ ";" }

/-- Removed-table results of `compare_schemas` (its second loop). -/
def schema_removed (source_tables target_tables : List TableInfo)
    (target_db_type : DbType) : List DiffResult :=
  target_tables.filterMap fun t =>
    if source_tables.any (fun u => u.name == t.name) then none
    else some {
      diff_type := DiffType.Removed,
      table_name := t.name,
      detail := "Table exists in target but not in source",
      sql := "DROP TABLE " ++ target_db_type.quote_identifier t.name ++ ";" }

/-- Per-table column diffs of `compare_schemas` (its third loop). -/
def schema_modified (source_tables target_tables : List TableInfo)
    (target_db_type : DbType) : List DiffResult :=
  source_tables.flatMap fun t =>
    match target_tables.find? (fun u => u.name == t.name) with
    | some u => compare_tables t.name t u target_db_type
    | none => []

/-- `compare_schemas` of `diff.rs`: build the two name-keyed table maps,
collect added, removed and per-table diffs in push order, then sort by
diff-kind rank and table name (Rust `sort_by` is a stable sort; so is
`List.insertionSort` with a nonstrict comparator). -/
def compare_schemas (source target : SchemaInfo) (target_db_type : DbType) :
    List DiffResult :=
  let source_tables := dedupKeepLast (fun t : TableInfo => t.name) source.tables
  let target_tables := dedupKeepLast (fun t : TableInfo => t.name) target.tables
  List.insertionSort diffLE
    (schema_added source_tables target_tables ++
      schema_removed source_tables target_tables target_db_type ++
      schema_modified source_tables target_tables target_db_type)

/-! ### Data diff engine (`src/db/sync.rs`) -/

/-- One fetched row: column name to textual value, as `sync.rs` builds it
(`HashMap<String, String>`; keys are the distinct column names). -/
abbrev Row : Type := List (String × String)

/-- A fetched row set: composite primary-key string to row
(`HashMap<String, HashMap<String, String>>`). -/
abbrev RowSet : Type := List (String × Row)

/-- `DataDiffType` of `sync.rs`. -/
inductive DataDiffType : Type
  | Insert
  | Update
  | Delete
deriving DecidableEq

/-- `DataDiffResult` of `sync.rs`. -/
structure DataDiffResult : Type where
  diff_type : DataDiffType
  table_name : String
  primary_key : Row
  old_values : Option Row
  new_values : Option Row
  sql : String
deriving DecidableEq

/-- Rust `HashMap` equality (`source_row != target_row` negated):
extensional equality of the two keyed maps.  On association lists whose
keys are distinct — the invariant every map of `sync.rs` satisfies — this
is exactly `HashMap` equality. -/
def rows_equal (a b : Row) : Bool :=
  (a.all fun p => b.lookup p.1 == some p.2) &&
    (b.all fun p => a.lookup p.1 == some p.2)

/-- `build_pk_key` of `sync.rs`: primary-key values joined by `|` in
primary-key-column order, the empty string standing in for a column the
row does not contain. -/
def build_pk_key (row : Row) (primary_keys : List String) : String :=
  String.intercalate "|" (primary_keys.map fun pk => (row.lookup pk).getD "")

/-- `escape_value` of `sync.rs`: the literal text NULL is emitted bare;
every other value is single-quoted with embedded single quotes doubled. -/
def escape_value (val : String) : String :=
  if val == "NULL" then "NULL"
  else "'" ++ String.mk (doubleQuotes val.data) ++ "'"

/-- `extract_primary_key` of `sync.rs`. -/
def extract_primary_key (row : Row) (primary_keys : List String) : Row :=
  primary_keys.filterMap fun pk => (row.lookup pk).map fun v => (pk, v)

/-- `generate_insert_sql` of `sync.rs`: columns filtered to those the row
contains, in declared column order. -/
def generate_insert_sql (db_type : DbType) (table_name : String) (row : Row)
    (columns : List String) : String :=
  let cols := (columns.filter fun c => (row.lookup c).isSome).map
    db_type.quote_identifier
  let vals := (columns.filterMap fun c => row.lookup c).map escape_value
  "INSERT INTO " ++ db_type.quote_identifier table_name ++ " (" ++
    String.intercalate ", " cols ++ ") VALUES (" ++
    String.intercalate ", " vals ++ ");"

/-- `generate_update_sql` of `sync.rs`: the SET list excludes primary-key
columns; the WHERE clause equates each primary-key column with its value. -/
def generate_update_sql (db_type : DbType) (table_name : String) (row : Row)
    (primary_keys : List String) : String :=
  let sets := (row.filter fun p => !primary_keys.contains p.1).map
    fun p => db_type.quote_identifier p.1 ++ " = " ++ escape_value p.2
  let wheres := primary_keys.filterMap
    fun pk => (row.lookup pk).map
      fun v => db_type.quote_identifier pk ++ " = " ++ escape_value v
  "UPDATE " ++ db_type.quote_identifier table_name ++ " SET " ++
    String.intercalate ", " sets ++ " WHERE " ++
    String.intercalate " AND " wheres ++ ";"

/-- `generate_delete_sql` of `sync.rs`. -/
def generate_delete_sql (db_type : DbType) (table_name : String)
    (primary_keys : List String) (pk_values : Row) : String :=
  let wheres := primary_keys.filterMap
    fun pk => (pk_values.lookup pk).map
      fun v => db_type.quote_identifier pk ++ " = " ++ escape_value v
  "DELETE FROM " ++ db_type.quote_identifier table_name ++ " WHERE " ++
    String.intercalate " AND " wheres ++ ";"

/-- The first scan of `compare_table_data` of `sync.rs`: for each source
key, an Update when the target row exists but differs, an Insert when the
key is absent from the target. -/
def data_upserts (target_db_type : DbType) (table_name : String)
    (primary_keys : List String) (column_names : List String)
    (source_data target_data : RowSet) : List DataDiffResult :=
  source_data.filterMap fun kv =>
    match target_data.lookup kv.1 with
    | some target_row =>
      if rows_equal kv.2 target_row then none
      else some {
        diff_type := DataDiffType.Update,
        table_name := table_name,
        primary_key := extract_primary_key kv.2 primary_keys,
        old_values := some target_row,
        new_values := some kv.2,
        sql := generate_update_sql target_db_type table_name kv.2 primary_keys }
    | none =>
      some {
        diff_type := DataDiffType.Insert,
        table_name := table_name,
        primary_key := extract_primary_key kv.2 primary_keys,
        old_values := none,
        new_values := some kv.2,
        sql := generate_insert_sql target_db_type table_name kv.2 column_names }

/-- The second scan of `compare_table_data` of `sync.rs`: a Delete for
each target key absent from the source. -/
def data_deletes (target_db_type : DbType) (table_name : String)
    (primary_keys : List String) (source_data target_data : RowSet) :
    List DataDiffResult :=
  target_data.filterMap fun kv =>
    if (source_data.lookup kv.1).isSome then none
    else
      let pk := extract_primary_key kv.2 primary_keys
      some {
        diff_type := DataDiffType.Delete,
        table_name := table_name,
        primary_key := pk,
        old_values := some kv.2,
        new_values := none,
        sql := generate_delete_sql target_db_type table_name primary_keys pk }

/-- `compare_table_data` of `sync.rs` with the I/O fetches abstracted: the
primary keys, column names and the two row sets are the values the four
`await`ed fetches produced.  The no-primary-key check precedes everything
else, exactly as in the source; the two scans mirror the source loops. -/
def compare_table_data_pure (target_db_type : DbType) (table_name : String)
    (primary_keys : List String) (column_names : List String)
    (source_data target_data : RowSet) : Except String (List DataDiffResult) :=
  if primary_keys.isEmpty then
    Except.error ("Table " ++ table_name ++ " has no primary key")
  else
    Except.ok
      (data_upserts target_db_type table_name primary_keys column_names
          source_data target_data ++
        data_deletes target_db_type table_name primary_keys
          source_data target_data)

/-- The pagination query built by `get_table_rows` of `sync.rs`: the
offset is `(page - 1) * page_size` with Rust's `saturating_sub`, which
`Nat` subtraction models exactly; SQL Server uses OFFSET/FETCH, the other
dialects LIMIT/OFFSET. -/
def get_table_rows_query (db_type : DbType) (table_name : String)
    (columns : List String) (page page_size : Nat) : String :=
  let quoted_cols := columns.map db_type.quote_identifier
  let offset := (page - 1) * page_size
  match db_type with
  | DbType.SQLServer =>
    "SELECT " ++ String.intercalate ", " quoted_cols ++ " FROM " ++
      db_type.quote_identifier table_name ++
      " ORDER BY (SELECT NULL) OFFSET " ++ toString offset ++
      " ROWS FETCH NEXT " ++ toString page_size ++ " ROWS ONLY"
  | _ =>
    "SELECT " ++ String.intercalate ", " quoted_cols ++ " FROM " ++
      db_type.quote_identifier table_name ++
      " LIMIT " ++ toString page_size ++ " OFFSET " ++ toString offset

/-- Modelled from the spec: the dialect-aware identifier stripping of the
round-trip property ("identifier quoting applied by quoteIdentifier
followed by dialect-aware stripping recovers the original name").  No
function of the repository implements it, so it follows the spec's words:
remove the dialect's opening quote from the front and its closing quote
from the back.  Every dialect's quote characters are single characters. -/
def strip_identifier (db : DbType) (s : String) : String :=
  String.mk ((s.data.drop (db.quote_char).1.length).dropLast)

/-! ### Order facts for the result sort -/

theorem charListLe_total : ∀ a b : List Char,
    charListLe a b = true ∨ charListLe b a = true
  | [], [] => Or.inl rfl
  | [], _ :: _ => Or.inl rfl
  | _ :: _, [] => Or.inr rfl
  | a :: as, b :: bs => by
    rcases lt_trichotomy a b with h | h | h
    · left; simp [charListLe, h]
    · subst h
      rcases charListLe_total as bs with ih | ih
      · left; simp [charListLe, lt_irrefl, ih]
      · right; simp [charListLe, lt_irrefl, ih]
    · right; simp [charListLe, h]

theorem charListLe_trans : ∀ a b c : List Char,
    charListLe a b = true → charListLe b c = true → charListLe a c = true
  | [], _, _, _, _ => rfl
  | _ :: _, [], _, h, _ => by simp [charListLe] at h
  | _ :: _, _ :: _, [], _, h => by simp [charListLe] at h
  | a :: as, b :: bs, c :: cs, h1, h2 => by
    rcases lt_trichotomy a b with hab | hab | hab
    · rcases lt_trichotomy b c with hbc | hbc | hbc
      · simp [charListLe, lt_trans hab hbc]
      · subst hbc; simp [charListLe, hab]
      · simp [charListLe, hbc, not_lt_of_gt hbc] at h2
    · subst hab
      rcases lt_trichotomy a c with hbc | hbc | hbc
      · simp [charListLe, hbc]
      · subst hbc
        simp only [charListLe, if_neg (lt_irrefl a)] at h1 h2 ⊢
        exact charListLe_trans as bs cs h1 h2
      · simp [charListLe, hbc, not_lt_of_gt hbc] at h2
    · simp [charListLe, hab, not_lt_of_gt hab] at h1

theorem strLe_total (a b : String) : strLe a b = true ∨ strLe b a = true :=
  charListLe_total a.data b.data

theorem strLe_trans {a b c : String} (h1 : strLe a b = true)
    (h2 : strLe b c = true) : strLe a c = true :=
  charListLe_trans a.data b.data c.data h1 h2

instance : IsTotal DiffResult diffLE := by
  constructor
  intro a b
  rcases lt_trichotomy (type_order a.diff_type) (type_order b.diff_type)
    with h | h | h
  · exact Or.inl (Or.inl h)
  · rcases strLe_total a.table_name b.table_name with hs | hs
    · exact Or.inl (Or.inr ⟨h, hs⟩)
    · exact Or.inr (Or.inr ⟨h.symm, hs⟩)
  · exact Or.inr (Or.inl h)

instance : IsTrans DiffResult diffLE := by
  constructor
  intro a b c hab hbc
  rcases hab with h1 | ⟨h1, hs1⟩
  · rcases hbc with h2 | ⟨h2, _⟩
    · exact Or.inl (lt_trans h1 h2)
    · exact Or.inl (h2 ▸ h1)
  · rcases hbc with h2 | ⟨h2, hs2⟩
    · exact Or.inl (h1 ▸ h2)
    · exact Or.inr ⟨h1.trans h2, strLe_trans hs1 hs2⟩

theorem type_order_inj {a b : DiffType} (h : type_order a = type_order b) :
    a = b := by
  cases a <;> cases b <;> first | rfl | simp [type_order] at h

/-! ### Self-comparison lemmas for the schema diff engine -/

theorem columns_equal_self (c : ColumnInfo) : columns_equal c c = true := by
  simp [columns_equal]

theorem table_added_cols_self (n : String) (m : List ColumnInfo) (d : DbType) :
    table_added_cols n m m d = [] := by
  unfold table_added_cols
  refine List.filterMap_eq_nil_iff.mpr ?_
  intro col hcol
  have h : m.any (fun u => u.name == col.name) = true :=
    List.any_eq_true.mpr ⟨col, hcol, by simp⟩
  simp [h]

theorem table_removed_cols_self (n : String) (m : List ColumnInfo) (d : DbType) :
    table_removed_cols n m m d = [] := by
  unfold table_removed_cols
  refine List.filterMap_eq_nil_iff.mpr ?_
  intro col hcol
  have h : m.any (fun u => u.name == col.name) = true :=
    List.any_eq_true.mpr ⟨col, hcol, by simp⟩
  simp [h]

theorem table_modified_cols_self (n : String) (m : List ColumnInfo) (d : DbType)
    (hm : m.Pairwise (fun a b => a.name ≠ b.name)) :
    table_modified_cols n m m d = [] := by
  unfold table_modified_cols
  refine List.filterMap_eq_nil_iff.mpr ?_
  intro col hcol
  rw [find?_key_self (fun c : ColumnInfo => c.name) hm hcol]
  simp [columns_equal_self]

theorem compare_tables_self (n : String) (t : TableInfo) (d : DbType) :
    compare_tables n t t d = [] := by
  simp only [compare_tables]
  rw [table_added_cols_self, table_removed_cols_self,
    table_modified_cols_self n _ d
      (dedupKeepLast_pairwise (fun c : ColumnInfo => c.name) t.columns)]
  rfl

theorem schema_added_self (m : List TableInfo) : schema_added m m = [] := by
  unfold schema_added
  refine List.filterMap_eq_nil_iff.mpr ?_
  intro t ht
  have h : m.any (fun u => u.name == t.name) = true :=
    List.any_eq_true.mpr ⟨t, ht, by simp⟩
  simp [h]

theorem schema_removed_self (m : List TableInfo) (d : DbType) :
    schema_removed m m d = [] := by
  unfold schema_removed
  refine List.filterMap_eq_nil_iff.mpr ?_
  intro t ht
  have h : m.any (fun u => u.name == t.name) = true :=
    List.any_eq_true.mpr ⟨t, ht, by simp⟩
  simp [h]

theorem schema_modified_self (m : List TableInfo) (d : DbType)
    (hm : m.Pairwise (fun a b => a.name ≠ b.name)) :
    schema_modified m m d = [] := by
  unfold schema_modified
  refine List.flatMap_eq_nil_iff.mpr ?_
  intro t ht
  rw [find?_key_self (fun u : TableInfo => u.name) hm ht]
  exact compare_tables_self t.name t d

/-- C1: comparing a schema against itself produces no Added, Removed or
Modified results, for every schema and every target dialect. -/
theorem compare_schemas_self_empty (S : SchemaInfo) (d : DbType) :
    compare_schemas S S d = [] := by
  simp only [compare_schemas]
  rw [schema_added_self, schema_removed_self,
    schema_modified_self _ d
      (dedupKeepLast_pairwise (fun t : TableInfo => t.name) S.tables)]
  rfl

/-- C2: the list compare_schemas returns is sorted: every Added result
precedes every Modified result, which precedes every Removed result
(diff-kind rank is non-decreasing), and two results of the same diff kind
appear with byte-wise lexicographically non-decreasing table names. -/
theorem compare_schemas_sorted (S T : SchemaInfo) (d : DbType) :
    (compare_schemas S T d).Pairwise (fun a b =>
      type_order a.diff_type ≤ type_order b.diff_type ∧
        (a.diff_type = b.diff_type → strLe a.table_name b.table_name = true)) := by
  have hs : (compare_schemas S T d).Pairwise diffLE := by
    simp only [compare_schemas]
    exact List.sorted_insertionSort diffLE _
  refine hs.imp ?_
  intro a b hab
  rcases hab with h | ⟨h, hsle⟩
  · exact ⟨le_of_lt h,
      fun he => absurd (congrArg type_order he) (ne_of_lt h)⟩
  · exact ⟨le_of_eq h, fun _ => hsle⟩

/-! ### Data diff engine: lemmas and claims -/

theorem lookup_self {β : Type} :
    ∀ {m : List (String × β)}, (m.map Prod.fst).Nodup →
      ∀ {kv : String × β}, kv ∈ m → m.lookup kv.1 = some kv.2
  | [], _, kv, hkv => absurd hkv (List.not_mem_nil kv)
  | (k, v) :: es, hnd, kv, hkv => by
    rw [List.map_cons] at hnd
    have hnd' := List.nodup_cons.mp hnd
    rcases List.mem_cons.mp hkv with rfl | hkv'
    · simp [List.lookup]
    · have hne : kv.1 ≠ k := by
        intro he
        exact hnd'.1 (he ▸ List.mem_map.mpr ⟨kv, hkv', rfl⟩)
      have hb : (kv.1 == k) = false := beq_eq_false_iff_ne.mpr hne
      rw [List.lookup, hb]
      exact lookup_self hnd'.2 hkv'

theorem rows_equal_refl {r : Row} (hnd : (r.map Prod.fst).Nodup) :
    rows_equal r r = true := by
  unfold rows_equal
  have h : ∀ p ∈ r, (r.lookup p.1 == some p.2) = true := by
    intro p hp
    rw [lookup_self hnd hp]
    simp
  rw [List.all_eq_true.mpr h]
  rfl

theorem data_upserts_self (d : DbType) (tbl : String) (pks cols : List String)
    (data : RowSet) (hkeys : (data.map Prod.fst).Nodup)
    (hrows : ∀ kv ∈ data, (kv.2.map Prod.fst).Nodup) :
    data_upserts d tbl pks cols data data = [] := by
  unfold data_upserts
  refine List.filterMap_eq_nil_iff.mpr ?_
  intro kv hkv
  rw [lookup_self hkeys hkv]
  simp [rows_equal_refl (hrows kv hkv)]

theorem data_deletes_self (d : DbType) (tbl : String) (pks : List String)
    (data : RowSet) (hkeys : (data.map Prod.fst).Nodup) :
    data_deletes d tbl pks data data = [] := by
  unfold data_deletes
  refine List.filterMap_eq_nil_iff.mpr ?_
  intro kv hkv
  rw [lookup_self hkeys hkv]
  rfl

/-- C3: with no source primary-key column the comparison fails with the
"no primary key" error (and so yields no diff results and no SQL); with at
least one primary-key column it never fails with that error, whatever the
fetched columns and row sets are. -/
theorem compare_table_data_no_pk (d : DbType) (tbl : String)
    (pks cols : List String) (src tgt : RowSet) :
    (pks = [] →
      compare_table_data_pure d tbl pks cols src tgt =
        Except.error ("Table " ++ tbl ++ " has no primary key")) ∧
    (pks ≠ [] →
      ∃ rs, compare_table_data_pure d tbl pks cols src tgt = Except.ok rs) := by
  constructor
  · rintro rfl
    rfl
  · intro hne
    cases pks with
    | nil => exact absurd rfl hne
    | cons p ps => exact ⟨_, rfl⟩

/-- Witness for C3 at concrete inputs: the empty primary-key list fails
with the exact error text, a one-column primary key succeeds. -/
theorem compare_table_data_no_pk_witness :
    compare_table_data_pure DbType.MySQL "t" [] ["id"] [] [] =
      Except.error ("Table " ++ "t" ++ " has no primary key") ∧
    (∃ rs, compare_table_data_pure DbType.MySQL "t" ["id"] ["id"] [] [] =
      Except.ok rs) :=
  ⟨(compare_table_data_no_pk DbType.MySQL "t" [] ["id"] [] []).1 rfl,
    (compare_table_data_no_pk DbType.MySQL "t" ["id"] ["id"] [] []).2
      (by simp)⟩

/-- C7: on two row sets with the same composite keys and deeply equal
per-column values — i.e. the same keyed mapping, here one association
list with distinct keys used on both sides — the comparison returns zero
diff results. -/
theorem compare_table_data_identical (d : DbType) (tbl : String)
    (pks cols : List String) (data : RowSet)
    (hpk : pks ≠ [])
    (hkeys : (data.map Prod.fst).Nodup)
    (hrows : ∀ kv ∈ data, (kv.2.map Prod.fst).Nodup) :
    compare_table_data_pure d tbl pks cols data data = Except.ok [] := by
  cases pks with
  | nil => exact absurd rfl hpk
  | cons p ps =>
    unfold compare_table_data_pure
    rw [data_upserts_self d tbl (p :: ps) cols data hkeys hrows,
      data_deletes_self d tbl (p :: ps) data hkeys]
    rfl

/-- Witness for C7: a concrete identical row set on both sides compares
to zero results. -/
theorem compare_table_data_identical_witness :
    compare_table_data_pure DbType.PostgreSQL "users" ["id"] ["id", "name"]
      [("1", [("id", "1"), ("name", "a")]), ("2", [("id", "2"), ("name", "b")])]
      [("1", [("id", "1"), ("name", "a")]), ("2", [("id", "2"), ("name", "b")])] =
      Except.ok [] :=
  compare_table_data_identical DbType.PostgreSQL "users" ["id"] ["id", "name"]
    [("1", [("id", "1"), ("name", "a")]), ("2", [("id", "2"), ("name", "b")])]
    (by simp) (by simp) (by decide)

/-- C10: build_pk_key is total — a primary-key column absent from the row
contributes the empty string instead of failing — so two rows that both
lack the primary-key columns get the same composite key; and present
values are joined by the separator in primary-key-column order. -/
theorem build_pk_key_missing (r1 r2 : Row) (pks : List String)
    (h : ∀ pk ∈ pks, r1.lookup pk = none ∧ r2.lookup pk = none) :
    build_pk_key r1 pks = build_pk_key r2 pks ∧
    build_pk_key r1 pks = String.intercalate "|" (pks.map fun _ => "") ∧
    build_pk_key [("a", "1"), ("b", "2")] ["b", "a"] = "2|1" := by
  have h1 : (pks.map fun pk => (r1.lookup pk).getD "") = pks.map fun _ => "" :=
    List.map_congr_left fun pk hpk => by rw [(h pk hpk).1]; rfl
  have h2 : (pks.map fun pk => (r2.lookup pk).getD "") = pks.map fun _ => "" :=
    List.map_congr_left fun pk hpk => by rw [(h pk hpk).2]; rfl
  refine ⟨?_, ?_, by decide⟩
  · unfold build_pk_key
    rw [h1, h2]
  · unfold build_pk_key
    rw [h1]

/-- Witness for C10: two distinct rows, each lacking the primary-key
column, receive the same composite key. -/
theorem build_pk_key_missing_witness :
    build_pk_key [("name", "x")] ["id"] = build_pk_key [("name", "y")] ["id"] ∧
    ([("name", "x")] : Row) ≠ [("name", "y")] :=
  ⟨(build_pk_key_missing [("name", "x")] [("name", "y")] ["id"]
      (by decide)).1,
    by decide⟩

/-! ### Value escaping (C4) -/

/-- No quote character stands alone: every run of quotes pairs up two by
two. -/
def noLoneQuote : List Char → Bool
  | [] => true
  | [c] => !(c == '\'')
  | c :: d :: cs =>
    if c == '\'' then (d == '\'') && noLoneQuote cs
    else noLoneQuote (d :: cs)

/-- The inverse of quote doubling: collapse each doubled quote back to
one. -/
def undoubleQuotes : List Char → List Char
  | [] => []
  | [c] => [c]
  | c :: d :: cs =>
    if c == '\'' then c :: undoubleQuotes cs
    else c :: undoubleQuotes (d :: cs)

theorem undoubleQuotes_cons₂ (c d : Char) (cs : List Char) :
    undoubleQuotes (c :: d :: cs) =
      if c == '\'' then c :: undoubleQuotes cs
      else c :: undoubleQuotes (d :: cs) := rfl

theorem noLoneQuote_cons₂ (c d : Char) (cs : List Char) :
    noLoneQuote (c :: d :: cs) =
      if c == '\'' then (d == '\'') && noLoneQuote cs
      else noLoneQuote (d :: cs) := rfl

theorem doubleQuotes_eq_nil_iff (l : List Char) :
    doubleQuotes l = [] ↔ l = [] := by
  cases l with
  | nil => simp [doubleQuotes]
  | cons c cs =>
    simp only [doubleQuotes]
    split <;> simp

theorem undouble_double : ∀ l : List Char, undoubleQuotes (doubleQuotes l) = l
  | [] => rfl
  | c :: cs => by
    by_cases hc : c = '\''
    · subst hc
      rw [show doubleQuotes ('\'' :: cs) = '\'' :: '\'' :: doubleQuotes cs from
        by simp [doubleQuotes]]
      show '\'' :: undoubleQuotes (doubleQuotes cs) = '\'' :: cs
      rw [undouble_double cs]
    · have hcb : (c == '\'') = false := beq_eq_false_iff_ne.mpr hc
      rw [show doubleQuotes (c :: cs) = c :: doubleQuotes cs from
        by simp [doubleQuotes, hcb]]
      cases hcs : doubleQuotes cs with
      | nil =>
        have h0 : cs = [] := (doubleQuotes_eq_nil_iff cs).mp hcs
        subst h0
        rfl
      | cons d ds =>
        rw [undoubleQuotes_cons₂]
        simp only [hcb, if_false, Bool.false_eq_true]
        rw [← hcs, undouble_double cs]

theorem noLone_double : ∀ l : List Char, noLoneQuote (doubleQuotes l) = true
  | [] => rfl
  | c :: cs => by
    by_cases hc : c = '\''
    · subst hc
      rw [show doubleQuotes ('\'' :: cs) = '\'' :: '\'' :: doubleQuotes cs from
        by simp [doubleQuotes]]
      show ((('\'' : Char) == '\'') && noLoneQuote (doubleQuotes cs)) = true
      simp [noLone_double cs]
    · have hcb : (c == '\'') = false := beq_eq_false_iff_ne.mpr hc
      rw [show doubleQuotes (c :: cs) = c :: doubleQuotes cs from
        by simp [doubleQuotes, hcb]]
      cases hcs : doubleQuotes cs with
      | nil => simp [noLoneQuote, hcb]
      | cons d ds =>
        rw [noLoneQuote_cons₂]
        simp only [hcb, if_false, Bool.false_eq_true]
        rw [← hcs]
        exact noLone_double cs

theorem quoted_ne_null (m : String) : ("'" ++ m ++ "'" : String) ≠ "NULL" := by
  intro h
  have hd := congrArg String.data h
  rw [String.data_append, String.data_append] at hd
  have h1 : ("'" : String).data = ['\''] := rfl
  have h2 : ("NULL" : String).data = ['N', 'U', 'L', 'L'] := rfl
  rw [h1, h2] at hd
  simp at hd

/-- C4: escape_value emits the bare SQL NULL exactly for the literal text
NULL; every other value is wrapped in single quotes with each embedded
single quote doubled (no lone quote remains, and undoubling recovers the
original text); the Insert generated for a source row containing O'Brien
contains 'O''Brien'. -/
theorem escape_value_spec (v : String) :
    ((escape_value v = "NULL") ↔ v = "NULL") ∧
    (v ≠ "NULL" →
      escape_value v = "'" ++ String.mk (doubleQuotes v.data) ++ "'") ∧
    noLoneQuote (doubleQuotes v.data) = true ∧
    undoubleQuotes (doubleQuotes v.data) = v.data ∧
    generate_insert_sql DbType.PostgreSQL "users"
      [("id", "1"), ("name", "O'Brien")] ["id", "name"] =
      "INSERT INTO \"users\" (\"id\", \"name\") VALUES ('1', 'O''Brien');" := by
  refine ⟨⟨?_, ?_⟩, ?_, noLone_double v.data, undouble_double v.data, by decide⟩
  · intro h
    by_contra hv
    have hvb : (v == "NULL") = false := beq_eq_false_iff_ne.mpr hv
    rw [escape_value, hvb] at h
    simp at h
    exact quoted_ne_null _ h
  · rintro rfl
    rfl
  · intro hv
    have hvb : (v == "NULL") = false := beq_eq_false_iff_ne.mpr hv
    rw [escape_value, hvb]
    simp

/-- Witness for C4 at the value O'Brien. -/
theorem escape_value_spec_witness :
    ("O'Brien" : String) ≠ "NULL" ∧
    escape_value "O'Brien" =
      "'" ++ String.mk (doubleQuotes "O'Brien".data) ++ "'" :=
  ⟨by decide, (escape_value_spec "O'Brien").2.1 (by decide)⟩

/-- C8: the pagination query built for page 0 equals the query built for
page 1 — the offset (page − 1) × pageSize saturates at zero, so no
negative offset can arise — for every dialect, table, column list and
page size. -/
theorem get_table_rows_page_clamped (d : DbType) (t : String)
    (cols : List String) (ps : Nat) :
    get_table_rows_query d t cols 0 ps = get_table_rows_query d t cols 1 ps :=
  rfl

/-- C9: the empty-string default passes the digits-dots-dashes membership
check vacuously, so the DEFAULT clause is emitted unquoted with no value
token: with no extra modifier the column definition ends in a trailing
" DEFAULT ". -/
theorem build_column_def_empty_default (col : ColumnInfo)
    (hd : col.default = some "") (he : col.extra = "") :
    is_numeric_or_special "" = true ∧
    build_column_def col =
      (if col.nullable then col.data_type else col.data_type ++ " NOT NULL") ++
        " DEFAULT " := by
  have h0 : is_numeric_or_special "" = true := by decide
  refine ⟨h0, ?_⟩
  simp only [build_column_def]
  rw [hd, he]
  simp [h0, String.append_empty]

/-- A concrete nullable INT column whose default is the empty string. -/
def emptyDefaultCol : ColumnInfo :=
  { name := "c", data_type := "INT", nullable := true, default := some "",
    is_primary_key := false, extra := "", position := 1 }

/-- Witness for C9: a concrete nullable INT column with empty default and
no extra modifier yields the dangling DEFAULT clause. -/
theorem build_column_def_empty_default_witness :
    build_column_def emptyDefaultCol = "INT DEFAULT " := by
  rw [(build_column_def_empty_default emptyDefaultCol rfl rfl).2]
  decide

/-! ### Default-value quoting (C5) -/

/-- The unquoted-default condition exactly as the claim states it: the
value is the literal NULL, one of the recognized keywords
CURRENT_TIMESTAMP, CURRENT_DATE, CURRENT_TIME, TRUE, FALSE, a
zero-argument call-like token (a value ending in "()"), or a string
composed only of digits, dots and dashes. -/
def spec_default_unquoted (v : String) : Bool :=
  v == "NULL" ||
    ["CURRENT_TIMESTAMP", "CURRENT_DATE", "CURRENT_TIME", "TRUE",
      "FALSE"].contains v ||
    strEndsWith v "()" ||
    v.data.all (fun c => c.isDigit || c == '.' || c == '-')

/-- A concrete column whose default value is "(1". -/
def parenDefaultCol : ColumnInfo :=
  { name := "c", data_type := "INT", nullable := true, default := some "(1",
    is_primary_key := false, extra := "", position := 1 }

/-- Counterexample to C5 as stated: the value "(1" is not the literal
NULL, not a recognized keyword, not a zero-argument call-like token and
not a digits-dots-dashes string, yet is_numeric_or_special accepts it (the
code also accepts any value whose uppercasing starts with a parenthesis),
so build_column_def emits it unquoted; the lowercase "null" is likewise
emitted unquoted although it is not the literal NULL (the code matches
case-insensitively). -/
theorem is_numeric_or_special_not_spec :
    is_numeric_or_special "(1" = true ∧ spec_default_unquoted "(1" = false ∧
    is_numeric_or_special "null" = true ∧
    spec_default_unquoted "null" = false ∧
    build_column_def parenDefaultCol = "INT DEFAULT (1" := by
  decide

/-- The amended unquoted-default condition: matching happens on the
uppercased value; besides the literal NULL, the keywords (NOW() included,
though the call-like rule covers it anyway) and values ending in "()", a
value starting with a parenthesis is also emitted unquoted. -/
def code_default_unquoted (v : String) : Bool :=
  let upper := toUpperStr v
  ["NULL", "CURRENT_TIMESTAMP", "CURRENT_DATE", "CURRENT_TIME", "NOW()",
    "TRUE", "FALSE"].contains upper ||
    strEndsWith upper "()" || strStartsWith upper "(" ||
    v.data.all (fun c => c.isDigit || c == '.' || c == '-')

theorem is_numeric_or_special_eq (v : String) :
    is_numeric_or_special v = code_default_unquoted v := by
  simp only [is_numeric_or_special, code_default_unquoted]
  generalize (["NULL", "CURRENT_TIMESTAMP", "CURRENT_DATE", "CURRENT_TIME",
    "NOW()", "TRUE", "FALSE"].contains (toUpperStr v)) = L
  generalize strEndsWith (toUpperStr v) "()" = E
  generalize strStartsWith (toUpperStr v) "(" = S
  generalize (v.data.all fun c => c.isDigit || c == '.' || c == '-') = D
  cases L <;> cases E <;> cases S <;> cases D <;> rfl

/-- A concrete column whose default value is "5". -/
def numDefaultCol : ColumnInfo :=
  { name := "c", data_type := "INT", nullable := true, default := some "5",
    is_primary_key := false, extra := "", position := 1 }

/-- A concrete column whose default value is "active". -/
def textDefaultCol : ColumnInfo :=
  { name := "c", data_type := "VARCHAR(20)", nullable := true,
    default := some "active", is_primary_key := false, extra := "",
    position := 2 }

/-- C5 (amended): build_column_def emits the default unquoted exactly when
the uppercased value is the literal NULL, one of the recognized keywords
(CURRENT_TIMESTAMP, CURRENT_DATE, CURRENT_TIME, NOW(), TRUE, FALSE), ends
in "()" (a zero-argument call-like token), starts with a parenthesis, or
consists only of digits, dots and dashes; otherwise the default is
single-quoted.  Default "5" yields DEFAULT 5, default "active" yields
DEFAULT 'active'. -/
theorem build_column_def_default_quoting :
    (∀ v, is_numeric_or_special v = code_default_unquoted v) ∧
    (∀ (col : ColumnInfo) (d : String), col.default = some d →
      col.extra = "" → col.nullable = true →
      build_column_def col = col.data_type ++
        (if code_default_unquoted d then " DEFAULT " ++ d
          else " DEFAULT '" ++ d ++ "'")) ∧
    build_column_def numDefaultCol = "INT DEFAULT 5" ∧
    build_column_def textDefaultCol = "VARCHAR(20) DEFAULT 'active'" := by
  refine ⟨is_numeric_or_special_eq, ?_, by decide, by decide⟩
  intro col d hd he hn
  simp only [build_column_def]
  rw [hd, he, hn]
  simp only [is_numeric_or_special_eq]
  cases hq : code_default_unquoted d <;>
    simp [hq, String.append_assoc]

/-- Witness for C5 at a concrete column with default "7". -/
theorem build_column_def_default_quoting_witness :
    build_column_def numDefaultCol = "INT" ++
      (if code_default_unquoted "5" then " DEFAULT " ++ "5"
        else " DEFAULT '" ++ "5" ++ "'") :=
  build_column_def_default_quoting.2.1 numDefaultCol "5" rfl rfl rfl

/-! ### Identifier-quoting round trip (C6) -/

theorem drop_one_dropLast_append (o c n : String) (ho : o.data.length = 1)
    (hc : c.data.length = 1) :
    ((o ++ n ++ c).data.drop 1).dropLast = n.data := by
  obtain ⟨a, ha⟩ := List.length_eq_one.mp ho
  obtain ⟨b, hb⟩ := List.length_eq_one.mp hc
  rw [String.data_append, String.data_append, ha, hb]
  simp

/-- C6: quoting an identifier with quote_identifier and then stripping the
dialect's open and close quote recovers the original name exactly, for
all four dialects and every name. -/
theorem quote_identifier_roundtrip (db : DbType) (name : String) :
    strip_identifier db (db.quote_identifier name) = name := by
  cases db with
  | MySQL => exact String.ext (drop_one_dropLast_append "`" "`" name rfl rfl)
  | PostgreSQL =>
    exact String.ext (drop_one_dropLast_append "\"" "\"" name rfl rfl)
  | SQLite =>
    exact String.ext (drop_one_dropLast_append "\"" "\"" name rfl rfl)
  | SQLServer =>
    exact String.ext (drop_one_dropLast_append "[" "]" name rfl rfl)

end SyncForge
